import Mathlib

/-!
A verification development for the minesweeper game engine in `src/lib.rs`.

The Rust code is shallowly embedded:
* `Vec<Vec<Tile>>` boards become functions `Nat → Nat → Tile`; every board
  access in the source is bounds-guarded, so only indices below `size` are
  ever relevant, and all guards are translated explicitly.
* `&mut self` methods returning `Result<(), String>` become functions
  `Minesweeper → ... → Minesweeper × Option String`: the first component is
  the post-state (equal to the input on every early-error return, mirroring
  the untouched `self`), the second is `none` for `Ok(())` and
  `some msg` for `Err(msg)`.
* `panic!`/`.expect` aborts in `new_with_first_click` are modelled by the
  `Except Panic` error channel: `Except.error (.panic msg)` means the Rust
  process aborts with that message, as opposed to returning a value.
* The random generator `rng.gen_range(0..n)` is modelled by consuming a
  caller-supplied list of draws; the `i`-th call yields `draws[i] % n`,
  which ranges over exactly the values `0..n` that the source can draw.
* The breadth-first `flood_fill` loop is given explicit fuel
  `size * size + 1`.  Each loop iteration pops one queue element; elements
  are enqueued only after being freshly marked in the `visited` grid, whose
  true entries all lie in the `size × size` grid and only grow, so at most
  `size * size` iterations can ever occur and the fuel is never exhausted.
  The loop additionally records the list of processed (dequeued)
  coordinates; the board/visited/queue computation mirrors the source.
-/

inductive TileValue where
  | Bomb : TileValue
  | Number : Nat → TileValue
  deriving DecidableEq, Repr

inductive GameState where
  | InProgress : GameState
  | Won : GameState
  | Lost : GameState
  deriving DecidableEq, Repr

structure Tile where
  value : TileValue
  exposed : Bool
  flagged : Bool
  deriving DecidableEq, Repr

/-- `Tile::new`: a default tile is `Number(0)`, unexposed, unflagged. -/
def Tile.new : Tile := ⟨TileValue.Number 0, false, false⟩

/-- `Tile::is_bomb`. -/
def Tile.is_bomb (t : Tile) : Bool :=
  match t.value with
  | TileValue.Bomb => true
  | TileValue.Number _ => false

/-- `Tile::set_bomb`. -/
def Tile.set_bomb (t : Tile) : Tile := { t with value := TileValue.Bomb }

/-- `Tile::set_number`. -/
def Tile.set_number (t : Tile) (count : Nat) : Tile :=
  { t with value := TileValue.Number count }

/-- `Tile::get_number`. -/
def Tile.get_number (t : Tile) : Option Nat :=
  match t.value with
  | TileValue.Number n => some n
  | TileValue.Bomb => none

/-- A board, the shallow embedding of `Vec<Vec<Tile>>`: only indices below
`size` are ever read or written by the (always bounds-guarded) source. -/
def Board : Type := Nat → Nat → Tile

/-- Functional update of a single board cell (`board[x][y] = f(board[x][y])`). -/
def updateTile (b : Board) (x y : Nat) (f : Tile → Tile) : Board :=
  fun i j => if i = x ∧ j = y then f (b x y) else b i j

structure Minesweeper where
  board : Board
  game_state : GameState
  size : Nat
  bomb_count : Nat

/-- The eight neighbor offsets scanned by the source's
`for dx in -1..=1 { for dy in -1..=1 { if dx == 0 && dy == 0 { continue } ... } }`
loops, in iteration order. -/
def neighbor_offsets : List (Int × Int) :=
  [(-1, -1), (-1, 0), (-1, 1), (0, -1), (0, 1), (1, -1), (1, 0), (1, 1)]

/-- The nine offsets scanned by `get_area_around` (the center included), in
iteration order. -/
def area_offsets : List (Int × Int) :=
  [(-1, -1), (-1, 0), (-1, 1), (0, -1), (0, 0), (0, 1), (1, -1), (1, 0), (1, 1)]

/-- The source's in-bounds test `nx >= 0 && ny >= 0 && (nx as usize) < size
&& (ny as usize) < size` on signed neighbor coordinates. -/
def signed_in_bounds (nx ny : Int) (size : Nat) : Prop :=
  0 ≤ nx ∧ 0 ≤ ny ∧ nx.toNat < size ∧ ny.toNat < size

instance (nx ny : Int) (size : Nat) : Decidable (signed_in_bounds nx ny size) := by
  unfold signed_in_bounds; infer_instance

/-- `Minesweeper::count_adjacent_bombs`. -/
def count_adjacent_bombs (board : Board) (x y size : Nat) : Nat :=
  neighbor_offsets.foldl
    (fun count d =>
      let nx : Int := (x : Int) + d.1
      let ny : Int := (y : Int) + d.2
      if signed_in_bounds nx ny size then
        if (board nx.toNat ny.toNat).is_bomb then count + 1 else count
      else count)
    0

/-- `Minesweeper::create_empty_board`. -/
def create_empty_board (_size : Nat) : Board := fun _ _ => Tile.new

/-- The first loop of `Minesweeper::new`: set each in-range mine coordinate
to a bomb (`if *x < size && *y < size { board[*x][*y].set_bomb() }`). -/
def place_mines (size : Nat) (board : Board) (locs : List (Nat × Nat)) : Board :=
  locs.foldl
    (fun b c => if c.1 < size ∧ c.2 < size then updateTile b c.1 c.2 Tile.set_bomb else b)
    board

/-- The second loop of `Minesweeper::new`: every non-bomb cell receives its
adjacent-bomb count.  The Rust loop mutates the grid it is scanning, but
`count_adjacent_bombs` reads only `is_bomb` and `set_number` never changes
`is_bomb`, so the per-cell functional map below computes the same board. -/
def assign_numbers (size : Nat) (board : Board) : Board :=
  fun x y =>
    if x < size ∧ y < size ∧ (board x y).is_bomb = false then
      (board x y).set_number (count_adjacent_bombs board x y size)
    else board x y

/-- `Minesweeper::new`. -/
def Minesweeper.new (size : Nat) (mine_locations : List (Nat × Nat)) : Minesweeper :=
  let board := place_mines size (create_empty_board size) mine_locations
  { board := assign_numbers size board
    game_state := GameState.InProgress
    size := size
    bomb_count := mine_locations.length }

/-- `Minesweeper::get_tile`. -/
def Minesweeper.get_tile (g : Minesweeper) (x y : Nat) : Option Tile :=
  if x < g.size ∧ y < g.size then some (g.board x y) else none

/-- The board transformation of `Minesweeper::expose_all_bombs`: every bomb
tile in the grid becomes exposed. -/
def expose_all_bombs_board (size : Nat) (b : Board) : Board :=
  fun x y =>
    if x < size ∧ y < size ∧ (b x y).is_bomb = true then
      { b x y with exposed := true }
    else b x y

/-- `Minesweeper::expose_all_bombs`. -/
def Minesweeper.expose_all_bombs (g : Minesweeper) : Minesweeper :=
  { g with board := expose_all_bombs_board g.size g.board }

/-- `self.board[x][y].exposed = true`. -/
def set_exposed (b : Board) (x y : Nat) : Board :=
  updateTile b x y (fun t => { t with exposed := true })

/-- `visited[x][y] = true`. -/
def set_visited (v : Nat → Nat → Bool) (x y : Nat) : Nat → Nat → Bool :=
  fun i j => if i = x ∧ j = y then true else v i j

/-- The neighbor scan of one `flood_fill` loop iteration: for each of the 8
offsets, an in-bounds, unvisited, non-bomb, unflagged neighbor is marked
visited and exposed, and enqueued when its value is `Number(0)`. -/
def flood_expand (size x y : Nat)
    (st : Board × (Nat → Nat → Bool) × List (Nat × Nat)) :
    Board × (Nat → Nat → Bool) × List (Nat × Nat) :=
  neighbor_offsets.foldl
    (fun st d =>
      let b := st.1
      let vis := st.2.1
      let q := st.2.2
      let nx : Int := (x : Int) + d.1
      let ny : Int := (y : Int) + d.2
      if signed_in_bounds nx ny size then
        if vis nx.toNat ny.toNat = false ∧ (b nx.toNat ny.toNat).is_bomb = false ∧
            (b nx.toNat ny.toNat).flagged = false then
          (set_exposed b nx.toNat ny.toNat,
           set_visited vis nx.toNat ny.toNat,
           if (b nx.toNat ny.toNat).value = TileValue.Number 0 then
             q ++ [(nx.toNat, ny.toNat)]
           else q)
        else st
      else st)
    st

/-- The source's `if let TileValue::Number(n) = value { if n > 0 { continue } }`
test: a dequeued cell stops the expansion exactly when it holds a positive
number (a bomb value falls through to the expansion, as in the source). -/
def is_positive_number : TileValue → Bool
  | TileValue.Number (_ + 1) => true
  | _ => false

/-- The `while let Some((x, y)) = queue.pop_front()` loop of `flood_fill`,
with explicit fuel (see the header comment: `size * size + 1` can never run
out) and a trace of the processed (dequeued) coordinates. -/
def flood_loop (size : Nat) :
    Nat → (Nat → Nat → Bool) → List (Nat × Nat) → Board → List (Nat × Nat) →
    Board × List (Nat × Nat)
  | 0, _, _, b, tr => (b, tr)
  | _ + 1, _, [], b, tr => (b, tr)
  | fuel + 1, vis, (x, y) :: rest, b, tr =>
    let b1 := set_exposed b x y
    if is_positive_number (b1 x y).value then
      flood_loop size fuel vis rest b1 (tr ++ [(x, y)])
    else
      let st := flood_expand size x y (b1, vis, rest)
      flood_loop size fuel st.2.1 st.2.2 st.1 (tr ++ [(x, y)])

/-- `Minesweeper::flood_fill`, returning the updated game and the list of
processed coordinates. -/
def Minesweeper.flood_fill (g : Minesweeper) (start_x start_y : Nat) :
    Minesweeper × List (Nat × Nat) :=
  let vis0 : Nat → Nat → Bool := fun _ _ => false
  let r := flood_loop g.size (g.size * g.size + 1) (set_visited vis0 start_x start_y)
    [(start_x, start_y)] g.board []
  ({ g with board := r.1 }, r.2)

/-- The row-major list of all grid coordinates, as pushed by the source's
`for x in 0..size { for y in 0..size { ... } }` loops. -/
def grid_coords (size : Nat) : List (Nat × Nat) :=
  (List.range size).flatMap fun x => (List.range size).map fun y => (x, y)

/-- The full-grid count inside `Minesweeper::check_win_condition`. -/
def Minesweeper.unexposed_non_bombs (g : Minesweeper) : Nat :=
  (grid_coords g.size).countP fun c =>
    !(g.board c.1 c.2).is_bomb && !(g.board c.1 c.2).exposed

/-- `Minesweeper::check_win_condition`. -/
def Minesweeper.check_win_condition (g : Minesweeper) : Minesweeper :=
  if g.unexposed_non_bombs = 0 then { g with game_state := GameState.Won } else g

/-- `Minesweeper::click_tile`. -/
def Minesweeper.click_tile (g : Minesweeper) (x y : Nat) : Minesweeper × Option String :=
  if g.game_state ≠ GameState.InProgress then
    (g, some "Game is already finished")
  else
    match g.get_tile x y with
    | none => (g, some "Invalid coordinates")
    | some t =>
      if t.exposed = true ∨ t.flagged = true then
        (g, some "Tile already exposed or flagged")
      else
        match t.value with
        | TileValue.Bomb =>
          (Minesweeper.expose_all_bombs { g with game_state := GameState.Lost }, none)
        | TileValue.Number 0 =>
          (Minesweeper.check_win_condition (g.flood_fill x y).1, none)
        | TileValue.Number (_ + 1) =>
          (Minesweeper.check_win_condition { g with board := set_exposed g.board x y }, none)

/-- `Minesweeper::toggle_flag`. -/
def Minesweeper.toggle_flag (g : Minesweeper) (x y : Nat) : Minesweeper × Option String :=
  if g.game_state ≠ GameState.InProgress then
    (g, some "Game is already finished")
  else if x < g.size ∧ y < g.size then
    if (g.board x y).exposed = true then
      (g, some "Cannot flag exposed tile")
    else
      ({ g with board := updateTile g.board x y (fun t => { t with flagged := !t.flagged }) },
       none)
  else (g, some "Invalid coordinates")

/-- `Minesweeper::get_game_state`. -/
def Minesweeper.get_game_state (g : Minesweeper) : GameState := g.game_state

/-- `Minesweeper::get_size`. -/
def Minesweeper.get_size (g : Minesweeper) : Nat := g.size

/-- `Minesweeper::get_bomb_count`. -/
def Minesweeper.get_bomb_count (g : Minesweeper) : Nat := g.bomb_count

/-- `Minesweeper::count_flagged_tiles`. -/
def Minesweeper.count_flagged_tiles (g : Minesweeper) : Nat :=
  (grid_coords g.size).countP fun c => (g.board c.1 c.2).flagged

/-- `Minesweeper::count_exposed_tiles`. -/
def Minesweeper.count_exposed_tiles (g : Minesweeper) : Nat :=
  (grid_coords g.size).countP fun c => (g.board c.1 c.2).exposed

/-- `Minesweeper::get_area_around`: all in-bounds positions in the 3×3 block
centered on `(x, y)`, the center included. -/
def get_area_around (x y size : Nat) : List (Nat × Nat) :=
  area_offsets.filterMap fun d =>
    let nx : Int := (x : Int) + d.1
    let ny : Int := (y : Int) + d.2
    if signed_in_bounds nx ny size then some (nx.toNat, ny.toNat) else none

/-- A Rust `panic!`/`.expect` abort, carrying its message. -/
inductive Panic where
  | panic : String → Panic
  deriving DecidableEq, Repr

/-- The candidate mine pool computed by `new_with_first_click`: all grid
positions minus the 3×3 area around the first click; when fewer than
`bomb_count` positions remain, the looser fallback that excludes only the
clicked cell itself. -/
def candidate_pool (size bomb_count fx fy : Nat) : List (Nat × Nat) :=
  let all_positions := grid_coords size
  let forbidden := get_area_around fx fy size
  let retained := all_positions.filter fun p => decide (p ∉ forbidden)
  if retained.length < bomb_count then
    all_positions.filter fun p => decide (p.1 ≠ fx ∨ p.2 ≠ fy)
  else retained

/-- The sampling loop of `new_with_first_click`: `n` times, draw an index
into the remaining pool (`rng.gen_range(0..len)`, modelled as the next
draw modulo `len`), push that position, and remove it from the pool. -/
def draw_mines : Nat → List (Nat × Nat) → List Nat → List (Nat × Nat)
  | 0, _, _ => []
  | n + 1, pool, draws =>
    let index := draws.headD 0 % pool.length
    pool.getD index (0, 0) :: draw_mines n (pool.eraseIdx index) draws.tail

/-- `Minesweeper::new_with_first_click`.  `Except.error (.panic msg)` models
the Rust aborts: the out-of-bounds `panic!` and the `.expect` on the forced
first click. -/
def new_with_first_click (size bomb_count : Nat) (first_click : Nat × Nat)
    (draws : List Nat) : Except Panic Minesweeper :=
  let fx := first_click.1
  let fy := first_click.2
  if size ≤ fx ∨ size ≤ fy then
    Except.error (Panic.panic "First click coordinates out of bounds")
  else
    let pool := candidate_pool size bomb_count fx fy
    let mine_locations := draw_mines (min bomb_count pool.length) pool draws
    let game := Minesweeper.new size mine_locations
    let r := game.click_tile fx fy
    match r.2 with
    | none => Except.ok r.1
    | some _ => Except.error (Panic.panic "First click should always be safe")

/-- The game states reachable from direct construction by arbitrary
sequences of `click_tile` and `toggle_flag` calls (failed calls return the
state unchanged, so successful-only sequences are subsumed). -/
inductive Reachable : Minesweeper → Prop where
  | new : ∀ size locs, Reachable (Minesweeper.new size locs)
  | click : ∀ g x y, Reachable g → Reachable (g.click_tile x y).1
  | flag : ∀ g x y, Reachable g → Reachable (g.toggle_flag x y).1

/-- The number of bomb tiles actually on the board, i.e. the number of
distinct in-range mine coordinates that were placed. -/
def mines_on_board (g : Minesweeper) : Nat :=
  (grid_coords g.size).countP fun c => (g.board c.1 c.2).is_bomb

/-- The number of in-range non-bomb tiles. -/
def non_mine_total (g : Minesweeper) : Nat :=
  (grid_coords g.size).countP fun c => !(g.board c.1 c.2).is_bomb

/-- Every in-range non-bomb tile is exposed. -/
def all_non_mines_exposed (g : Minesweeper) : Bool :=
  (grid_coords g.size).all fun c =>
    (g.board c.1 c.2).is_bomb || (g.board c.1 c.2).exposed

/-- The in-bounds 8-directional neighbors of `(x, y)`, as coordinates. -/
def adjacent_coords (x y size : Nat) : List (Nat × Nat) :=
  neighbor_offsets.filterMap fun d =>
    let nx : Int := (x : Int) + d.1
    let ny : Int := (y : Int) + d.2
    if signed_in_bounds nx ny size then some (nx.toNat, ny.toNat) else none

/-- The specification-side adjacency count: the exact number of in-bounds
8-directionally adjacent tiles whose value is a mine. -/
def spec_adjacent_mine_count (b : Board) (size x y : Nat) : Nat :=
  (adjacent_coords x y size).countP fun c => (b c.1 c.2).is_bomb

/-- The invariant of the flood-fill loop, relative to the board `b₀` at the
start of the flood fill and the trace `tr` of already-processed cells.
`st` bundles the current board, visited grid and queue.  It says: the loop
only ever changes `exposed` bits; cells flagged or mined in `b₀` keep their
original exposure; every queued cell is in-bounds, unflagged and not a
mine; the processed cells and the queue hold no duplicates; and every
processed or queued cell is marked visited. -/
def FloodInv (size : Nat) (b₀ : Board) (tr : List (Nat × Nat))
    (st : Board × (Nat → Nat → Bool) × List (Nat × Nat)) : Prop :=
  (∀ i j, (st.1 i j).value = (b₀ i j).value ∧ (st.1 i j).flagged = (b₀ i j).flagged) ∧
  (∀ i j, ((b₀ i j).flagged = true ∨ (b₀ i j).is_bomb = true) →
    (st.1 i j).exposed = (b₀ i j).exposed) ∧
  (∀ c ∈ st.2.2, c.1 < size ∧ c.2 < size ∧ (b₀ c.1 c.2).flagged = false ∧
    (b₀ c.1 c.2).is_bomb = false) ∧
  (tr ++ st.2.2).Nodup ∧
  (∀ c ∈ tr ++ st.2.2, st.2.1 c.1 c.2 = true)

/-! ### Basic tile and board lemmas -/

theorem Tile.is_bomb_true_iff (t : Tile) : t.is_bomb = true ↔ t.value = TileValue.Bomb := by
  unfold Tile.is_bomb
  cases t.value <;> simp

theorem Tile.is_bomb_false_iff (t : Tile) :
    t.is_bomb = false ↔ ∃ n, t.value = TileValue.Number n := by
  unfold Tile.is_bomb
  cases t.value <;> simp

theorem updateTile_apply (b : Board) (x y i j : Nat) (f : Tile → Tile) :
    updateTile b x y f i j = if i = x ∧ j = y then f (b x y) else b i j := rfl

theorem foldl_preserves {α : Type} {β : Type} (P : β → Prop) (f : β → α → β)
    (hstep : ∀ b a, P b → P (f b a)) :
    ∀ (l : List α) (b : β), P b → P (l.foldl f b) := by
  intro l
  induction l with
  | nil => exact fun b hb => hb
  | cons a l ih => exact fun b hb => ih _ (hstep _ _ hb)

theorem place_mines_nil (size : Nat) (b : Board) : place_mines size b [] = b := rfl

theorem place_mines_cons (size : Nat) (b : Board) (c : Nat × Nat) (locs : List (Nat × Nat)) :
    place_mines size b (c :: locs) =
      place_mines size
        (if c.1 < size ∧ c.2 < size then updateTile b c.1 c.2 Tile.set_bomb else b) locs := rfl

theorem place_mines_exposed (size : Nat) (locs : List (Nat × Nat)) (b : Board) (i j : Nat) :
    (place_mines size b locs i j).exposed = (b i j).exposed := by
  induction locs generalizing b with
  | nil => rfl
  | cons c locs ih =>
    rw [place_mines_cons, ih]
    by_cases hc : c.1 < size ∧ c.2 < size
    · rw [if_pos hc, updateTile_apply]
      by_cases hij : i = c.1 ∧ j = c.2
      · rw [if_pos hij, hij.1, hij.2]
        rfl
      · rw [if_neg hij]
    · rw [if_neg hc]

theorem place_mines_flagged (size : Nat) (locs : List (Nat × Nat)) (b : Board) (i j : Nat) :
    (place_mines size b locs i j).flagged = (b i j).flagged := by
  induction locs generalizing b with
  | nil => rfl
  | cons c locs ih =>
    rw [place_mines_cons, ih]
    by_cases hc : c.1 < size ∧ c.2 < size
    · rw [if_pos hc, updateTile_apply]
      by_cases hij : i = c.1 ∧ j = c.2
      · rw [if_pos hij, hij.1, hij.2]
        rfl
      · rw [if_neg hij]
    · rw [if_neg hc]

theorem place_mines_is_bomb (size : Nat) (locs : List (Nat × Nat)) (b : Board) (i j : Nat) :
    (place_mines size b locs i j).is_bomb = true ↔
      (b i j).is_bomb = true ∨ ((i, j) ∈ locs ∧ i < size ∧ j < size) := by
  induction locs generalizing b with
  | nil => simp [place_mines_nil]
  | cons c locs ih =>
    obtain ⟨cx, cy⟩ := c
    rw [place_mines_cons, ih]
    by_cases hc : cx < size ∧ cy < size
    · rw [if_pos hc, updateTile_apply]
      by_cases hij : i = cx ∧ j = cy
      · rw [if_pos hij]
        simp [Tile.set_bomb, Tile.is_bomb, hij.1, hij.2, hc.1, hc.2]
      · rw [if_neg hij]
        constructor
        · rintro (h | h)
          · exact Or.inl h
          · exact Or.inr ⟨List.mem_cons_of_mem _ h.1, h.2⟩
        · rintro (h | ⟨hm, hr⟩)
          · exact Or.inl h
          · rcases List.mem_cons.mp hm with h | h
            · exact absurd ⟨congrArg Prod.fst h, congrArg Prod.snd h⟩ hij
            · exact Or.inr ⟨h, hr⟩
    · rw [if_neg hc]
      constructor
      · rintro (h | h)
        · exact Or.inl h
        · exact Or.inr ⟨List.mem_cons_of_mem _ h.1, h.2⟩
      · rintro (h | ⟨hm, hr⟩)
        · exact Or.inl h
        · rcases List.mem_cons.mp hm with h | h
          · injection h with h1 h2
            exact absurd ⟨h1 ▸ hr.1, h2 ▸ hr.2⟩ hc
          · exact Or.inr ⟨h, hr⟩

theorem assign_numbers_apply (size : Nat) (b : Board) (i j : Nat) :
    assign_numbers size b i j =
      if i < size ∧ j < size ∧ (b i j).is_bomb = false then
        (b i j).set_number (count_adjacent_bombs b i j size)
      else b i j := rfl

theorem assign_numbers_exposed (size : Nat) (b : Board) (i j : Nat) :
    (assign_numbers size b i j).exposed = (b i j).exposed := by
  rw [assign_numbers_apply]
  split
  · simp [Tile.set_number]
  · rfl

theorem assign_numbers_flagged (size : Nat) (b : Board) (i j : Nat) :
    (assign_numbers size b i j).flagged = (b i j).flagged := by
  rw [assign_numbers_apply]
  split
  · simp [Tile.set_number]
  · rfl

theorem assign_numbers_is_bomb (size : Nat) (b : Board) (i j : Nat) :
    (assign_numbers size b i j).is_bomb = (b i j).is_bomb := by
  rw [assign_numbers_apply]
  split
  · rename_i h
    exact h.2.2.symm
  · rfl

theorem assign_numbers_value_of_not_bomb (size : Nat) (b : Board) (i j : Nat)
    (hi : i < size) (hj : j < size) (hb : (b i j).is_bomb = false) :
    (assign_numbers size b i j).value =
      TileValue.Number (count_adjacent_bombs b i j size) := by
  rw [assign_numbers_apply, if_pos ⟨hi, hj, hb⟩, Tile.set_number]

theorem new_board_eq (size : Nat) (locs : List (Nat × Nat)) :
    (Minesweeper.new size locs).board =
      assign_numbers size (place_mines size (create_empty_board size) locs) := rfl

theorem new_game_state (size : Nat) (locs : List (Nat × Nat)) :
    (Minesweeper.new size locs).game_state = GameState.InProgress := rfl

theorem new_size (size : Nat) (locs : List (Nat × Nat)) :
    (Minesweeper.new size locs).size = size := rfl

theorem new_bomb_count (size : Nat) (locs : List (Nat × Nat)) :
    (Minesweeper.new size locs).bomb_count = locs.length := rfl

theorem new_exposed (size : Nat) (locs : List (Nat × Nat)) (i j : Nat) :
    ((Minesweeper.new size locs).board i j).exposed = false := by
  rw [new_board_eq, assign_numbers_exposed, place_mines_exposed]
  rfl

theorem new_flagged (size : Nat) (locs : List (Nat × Nat)) (i j : Nat) :
    ((Minesweeper.new size locs).board i j).flagged = false := by
  rw [new_board_eq, assign_numbers_flagged, place_mines_flagged]
  rfl

theorem new_is_bomb (size : Nat) (locs : List (Nat × Nat)) (i j : Nat) :
    ((Minesweeper.new size locs).board i j).is_bomb = true ↔
      ((i, j) ∈ locs ∧ i < size ∧ j < size) := by
  rw [new_board_eq, assign_numbers_is_bomb, place_mines_is_bomb]
  simp [create_empty_board, Tile.new, Tile.is_bomb]

/-! ### Case equations for `click_tile` and `toggle_flag` -/

theorem click_tile_game_over (g : Minesweeper) (x y : Nat)
    (h : g.game_state ≠ GameState.InProgress) :
    g.click_tile x y = (g, some "Game is already finished") := by
  unfold Minesweeper.click_tile
  rw [if_pos h]

theorem click_tile_out_of_range (g : Minesweeper) (x y : Nat)
    (hstate : g.game_state = GameState.InProgress) (h : ¬(x < g.size ∧ y < g.size)) :
    g.click_tile x y = (g, some "Invalid coordinates") := by
  unfold Minesweeper.click_tile Minesweeper.get_tile
  rw [if_neg (by rw [hstate]; simp), if_neg h]

theorem click_tile_unavailable (g : Minesweeper) (x y : Nat)
    (hstate : g.game_state = GameState.InProgress) (hx : x < g.size) (hy : y < g.size)
    (h : (g.board x y).exposed = true ∨ (g.board x y).flagged = true) :
    g.click_tile x y = (g, some "Tile already exposed or flagged") := by
  unfold Minesweeper.click_tile Minesweeper.get_tile
  rw [if_neg (by rw [hstate]; simp), if_pos ⟨hx, hy⟩]
  show (if (g.board x y).exposed = true ∨ (g.board x y).flagged = true then _ else _) = _
  rw [if_pos h]

theorem click_tile_bomb (g : Minesweeper) (x y : Nat)
    (hstate : g.game_state = GameState.InProgress) (hx : x < g.size) (hy : y < g.size)
    (hexp : (g.board x y).exposed = false) (hflag : (g.board x y).flagged = false)
    (hval : (g.board x y).value = TileValue.Bomb) :
    g.click_tile x y =
      (Minesweeper.expose_all_bombs { g with game_state := GameState.Lost }, none) := by
  unfold Minesweeper.click_tile Minesweeper.get_tile
  rw [if_neg (by rw [hstate]; simp), if_pos ⟨hx, hy⟩]
  show (if (g.board x y).exposed = true ∨ (g.board x y).flagged = true then _
        else match (g.board x y).value with
          | TileValue.Bomb => _
          | TileValue.Number 0 => _
          | TileValue.Number (_ + 1) => _) = _
  rw [if_neg (by rw [hexp, hflag]; simp), hval]

theorem click_tile_zero (g : Minesweeper) (x y : Nat)
    (hstate : g.game_state = GameState.InProgress) (hx : x < g.size) (hy : y < g.size)
    (hexp : (g.board x y).exposed = false) (hflag : (g.board x y).flagged = false)
    (hval : (g.board x y).value = TileValue.Number 0) :
    g.click_tile x y = (Minesweeper.check_win_condition (g.flood_fill x y).1, none) := by
  unfold Minesweeper.click_tile Minesweeper.get_tile
  rw [if_neg (by rw [hstate]; simp), if_pos ⟨hx, hy⟩]
  show (if (g.board x y).exposed = true ∨ (g.board x y).flagged = true then _
        else match (g.board x y).value with
          | TileValue.Bomb => _
          | TileValue.Number 0 => _
          | TileValue.Number (_ + 1) => _) = _
  rw [if_neg (by rw [hexp, hflag]; simp), hval]

theorem click_tile_number (g : Minesweeper) (x y n : Nat)
    (hstate : g.game_state = GameState.InProgress) (hx : x < g.size) (hy : y < g.size)
    (hexp : (g.board x y).exposed = false) (hflag : (g.board x y).flagged = false)
    (hval : (g.board x y).value = TileValue.Number (n + 1)) :
    g.click_tile x y =
      (Minesweeper.check_win_condition { g with board := set_exposed g.board x y }, none) := by
  unfold Minesweeper.click_tile Minesweeper.get_tile
  rw [if_neg (by rw [hstate]; simp), if_pos ⟨hx, hy⟩]
  show (if (g.board x y).exposed = true ∨ (g.board x y).flagged = true then _
        else match (g.board x y).value with
          | TileValue.Bomb => _
          | TileValue.Number 0 => _
          | TileValue.Number (_ + 1) => _) = _
  rw [if_neg (by rw [hexp, hflag]; simp), hval]

theorem toggle_flag_game_over (g : Minesweeper) (x y : Nat)
    (h : g.game_state ≠ GameState.InProgress) :
    g.toggle_flag x y = (g, some "Game is already finished") := by
  unfold Minesweeper.toggle_flag
  rw [if_pos h]

theorem toggle_flag_out_of_range (g : Minesweeper) (x y : Nat)
    (hstate : g.game_state = GameState.InProgress) (h : ¬(x < g.size ∧ y < g.size)) :
    g.toggle_flag x y = (g, some "Invalid coordinates") := by
  unfold Minesweeper.toggle_flag
  rw [if_neg (by rw [hstate]; simp), if_neg h]

theorem toggle_flag_exposed (g : Minesweeper) (x y : Nat)
    (hstate : g.game_state = GameState.InProgress) (hx : x < g.size) (hy : y < g.size)
    (h : (g.board x y).exposed = true) :
    g.toggle_flag x y = (g, some "Cannot flag exposed tile") := by
  unfold Minesweeper.toggle_flag
  rw [if_neg (by rw [hstate]; simp), if_pos ⟨hx, hy⟩, if_pos h]

theorem toggle_flag_success (g : Minesweeper) (x y : Nat)
    (hstate : g.game_state = GameState.InProgress) (hx : x < g.size) (hy : y < g.size)
    (h : (g.board x y).exposed = false) :
    g.toggle_flag x y =
      ({ g with board := updateTile g.board x y fun t => { t with flagged := !t.flagged } },
       none) := by
  unfold Minesweeper.toggle_flag
  rw [if_neg (by rw [hstate]; simp), if_pos ⟨hx, hy⟩, if_neg (by rw [h]; simp)]

/-! ### Claim C2: what `bomb_count` actually counts -/

/-- C2, counterexample: `Minesweeper::new` sets `bomb_count` to
`mine_locations.len()` before deduplication or range filtering, so passing
the mine `(0,0)` twice on a 3×3 board reports `bomb_count = 2` while only
one distinct in-range mine is placed on the board — the claimed equality
fails. -/
theorem claim_C2_counterexample :
    (Minesweeper.new 3 [(0, 0), (0, 0)]).get_bomb_count ≠
      mines_on_board (Minesweeper.new 3 [(0, 0), (0, 0)]) := by decide

/-- C2, amended: for every size and every mine coordinate list, the
resulting game's `bomb_count` equals the *length of the input list*,
counting duplicate and out-of-range coordinates, not the number of distinct
in-range mines actually placed. -/
theorem claim_C2_amended (size : Nat) (mine_locations : List (Nat × Nat)) :
    (Minesweeper.new size mine_locations).get_bomb_count = mine_locations.length := rfl

/-! ### Claim C7: actions after the game is over -/

/-- C7: once the game state is `Won` or `Lost`, both `click_tile` and
`toggle_flag` fail with the game-already-over error and return the game
completely unchanged (board, state, size and bomb count included). -/
theorem claim_C7_game_over_rejects (g : Minesweeper) (x y : Nat)
    (h : g.game_state = GameState.Won ∨ g.game_state = GameState.Lost) :
    g.click_tile x y = (g, some "Game is already finished") ∧
    g.toggle_flag x y = (g, some "Game is already finished") := by
  have hne : g.game_state ≠ GameState.InProgress := by
    rcases h with h | h <;> rw [h] <;> simp
  exact ⟨click_tile_game_over g x y hne, toggle_flag_game_over g x y hne⟩

/-- C7, witness: on the 2×2 board with a mine at (0,0), clicking the mine
loses the game; afterwards a click at (1,1) is rejected with the
game-already-over error and leaves the state unchanged. -/
theorem claim_C7_witness :
    (((Minesweeper.new 2 [(0, 0)]).click_tile 0 0).1.game_state = GameState.Won ∨
      ((Minesweeper.new 2 [(0, 0)]).click_tile 0 0).1.game_state = GameState.Lost) ∧
    (((Minesweeper.new 2 [(0, 0)]).click_tile 0 0).1.click_tile 1 1 =
      (((Minesweeper.new 2 [(0, 0)]).click_tile 0 0).1, some "Game is already finished") ∧
     ((Minesweeper.new 2 [(0, 0)]).click_tile 0 0).1.toggle_flag 1 1 =
      (((Minesweeper.new 2 [(0, 0)]).click_tile 0 0).1, some "Game is already finished")) :=
  ⟨Or.inr (by decide),
   claim_C7_game_over_rejects ((Minesweeper.new 2 [(0, 0)]).click_tile 0 0).1 1 1
     (Or.inr (by decide))⟩

/-! ### Claim C9: out-of-bounds first click -/

/-- C9, counterexample: `new_with_first_click` has no typed failure channel
(its Rust signature returns `Self`); an out-of-bounds first click hits
`panic!("First click coordinates out of bounds")`, i.e. the process aborts
(modelled by the `Panic` outcome) instead of returning a typed failure as
the claim states. -/
theorem claim_C9_counterexample :
    new_with_first_click 3 1 (5, 5) [] =
      Except.error (Panic.panic "First click coordinates out of bounds") := rfl

/-- C9, amended: for every size, bomb count and draw sequence, a first
click outside the grid makes `new_with_first_click` abort via `panic!`
(not return a typed failure); the panic fires in the validation step at the
top of the function, before any board allocation. -/
theorem claim_C9_amended (size bomb_count fx fy : Nat) (draws : List Nat)
    (h : size ≤ fx ∨ size ≤ fy) :
    new_with_first_click size bomb_count (fx, fy) draws =
      Except.error (Panic.panic "First click coordinates out of bounds") := by
  unfold new_with_first_click
  rw [if_pos h]

/-- C9, witness: the amended theorem applied to the concrete out-of-bounds
first click (0, 9) on a 4×4 board. -/
theorem claim_C9_witness :
    (4 ≤ 0 ∨ 4 ≤ 9) ∧
    new_with_first_click 4 2 (0, 9) [1, 2] =
      Except.error (Panic.panic "First click coordinates out of bounds") :=
  ⟨Or.inr (by decide), claim_C9_amended 4 2 0 9 [1, 2] (Or.inr (by decide))⟩

/-! ### Claim C4: clicking a mine -/

/-- C4: clicking an unexposed, unflagged mine tile of an in-progress game
succeeds, sets the state to `Lost`, exposes every mine tile on the board,
and leaves every non-mine tile entirely unchanged (value, exposed and
flagged bits). -/
theorem claim_C4_mine_click (g : Minesweeper) (x y : Nat)
    (hstate : g.game_state = GameState.InProgress)
    (hx : x < g.size) (hy : y < g.size)
    (hexp : (g.board x y).exposed = false)
    (hflag : (g.board x y).flagged = false)
    (hbomb : (g.board x y).is_bomb = true) :
    (g.click_tile x y).2 = none ∧
    (g.click_tile x y).1.game_state = GameState.Lost ∧
    (∀ i j, i < g.size → j < g.size → (g.board i j).is_bomb = true →
      ((g.click_tile x y).1.board i j).exposed = true) ∧
    (∀ i j, (g.board i j).is_bomb = false →
      (g.click_tile x y).1.board i j = g.board i j) := by
  have hval : (g.board x y).value = TileValue.Bomb := (Tile.is_bomb_true_iff _).mp hbomb
  rw [click_tile_bomb g x y hstate hx hy hexp hflag hval]
  refine ⟨rfl, rfl, ?_, ?_⟩
  · intro i j hi hj hb
    show (expose_all_bombs_board g.size g.board i j).exposed = true
    unfold expose_all_bombs_board
    rw [if_pos ⟨hi, hj, hb⟩]
  · intro i j hb
    show expose_all_bombs_board g.size g.board i j = g.board i j
    unfold expose_all_bombs_board
    rw [if_neg]
    intro h
    rw [h.2.2] at hb
    cases hb

/-- C4, witness: the mine click at (0,0) on the 2×2 board with a mine at
(0,0): the click succeeds, the game is `Lost`, all mines end up exposed and
non-mine tiles are untouched. -/
theorem claim_C4_witness :
    ((Minesweeper.new 2 [(0, 0)]).game_state = GameState.InProgress ∧
     0 < (Minesweeper.new 2 [(0, 0)]).size ∧
     ((Minesweeper.new 2 [(0, 0)]).board 0 0).exposed = false ∧
     ((Minesweeper.new 2 [(0, 0)]).board 0 0).flagged = false ∧
     ((Minesweeper.new 2 [(0, 0)]).board 0 0).is_bomb = true) ∧
    (((Minesweeper.new 2 [(0, 0)]).click_tile 0 0).2 = none ∧
     ((Minesweeper.new 2 [(0, 0)]).click_tile 0 0).1.game_state = GameState.Lost ∧
     (∀ i j, i < (Minesweeper.new 2 [(0, 0)]).size → j < (Minesweeper.new 2 [(0, 0)]).size →
       ((Minesweeper.new 2 [(0, 0)]).board i j).is_bomb = true →
       (((Minesweeper.new 2 [(0, 0)]).click_tile 0 0).1.board i j).exposed = true) ∧
     (∀ i j, ((Minesweeper.new 2 [(0, 0)]).board i j).is_bomb = false →
       ((Minesweeper.new 2 [(0, 0)]).click_tile 0 0).1.board i j =
         (Minesweeper.new 2 [(0, 0)]).board i j)) :=
  ⟨⟨by decide, by decide, by decide, by decide, by decide⟩,
   claim_C4_mine_click (Minesweeper.new 2 [(0, 0)]) 0 0 (by decide) (by decide) (by decide)
     (by decide) (by decide) (by decide)⟩

/-! ### Claim C6: adjacency counts -/

theorem foldl_count_filterMap {α β : Type} (P : α → Prop) [DecidablePred P]
    (coord : α → β) (p : β → Bool) :
    ∀ (l : List α) (n : Nat),
      l.foldl (fun cnt d => if P d then (if p (coord d) then cnt + 1 else cnt) else cnt) n =
        n + (l.filterMap fun d => if P d then some (coord d) else none).countP p := by
  intro l
  induction l with
  | nil => intro n; simp
  | cons d l ih =>
    intro n
    by_cases h : P d
    · rw [List.foldl_cons, List.filterMap_cons, if_pos h, if_pos h]
      by_cases hp : p (coord d) = true
      · rw [if_pos hp, ih, List.countP_cons_of_pos _ _ hp]
        omega
      · rw [if_neg hp, ih, List.countP_cons_of_neg _ _ hp]
    · rw [List.foldl_cons, List.filterMap_cons, if_neg h, if_neg h, ih]

theorem count_adjacent_bombs_eq_spec (b : Board) (x y size : Nat) :
    count_adjacent_bombs b x y size = spec_adjacent_mine_count b size x y := by
  have h := foldl_count_filterMap
    (fun d : Int × Int => signed_in_bounds ((x : Int) + d.1) ((y : Int) + d.2) size)
    (fun d : Int × Int => (((x : Int) + d.1).toNat, ((y : Int) + d.2).toNat))
    (fun c : Nat × Nat => (b c.1 c.2).is_bomb)
    neighbor_offsets 0
  rw [Nat.zero_add] at h
  exact h

theorem spec_adjacent_mine_count_congr (b b' : Board) (size x y : Nat)
    (h : ∀ i j, (b i j).is_bomb = (b' i j).is_bomb) :
    spec_adjacent_mine_count b size x y = spec_adjacent_mine_count b' size x y := by
  unfold spec_adjacent_mine_count
  exact List.countP_congr fun c _ => by rw [h c.1 c.2]

/-- C6: on every constructed board, every tile holding `Number k` has `k`
equal to the exact count of its in-bounds 8-directionally adjacent mine
tiles. -/
theorem claim_C6_adjacency (size : Nat) (locs : List (Nat × Nat)) (x y k : Nat)
    (hx : x < size) (hy : y < size)
    (hv : ((Minesweeper.new size locs).board x y).value = TileValue.Number k) :
    k = spec_adjacent_mine_count (Minesweeper.new size locs).board size x y := by
  have hcongr : ∀ i j,
      ((Minesweeper.new size locs).board i j).is_bomb =
        (place_mines size (create_empty_board size) locs i j).is_bomb := by
    intro i j
    rw [new_board_eq, assign_numbers_is_bomb]
  by_cases hb : (place_mines size (create_empty_board size) locs x y).is_bomb = false
  · have hval : ((Minesweeper.new size locs).board x y).value =
        TileValue.Number
          (count_adjacent_bombs (place_mines size (create_empty_board size) locs) x y size) := by
      rw [new_board_eq]
      exact assign_numbers_value_of_not_bomb size _ x y hx hy hb
    rw [hval] at hv
    have hk := (TileValue.Number.injEq _ _).mp hv.symm
    rw [hk, count_adjacent_bombs_eq_spec]
    exact spec_adjacent_mine_count_congr _ _ size x y fun i j => (hcongr i j).symm
  · rw [Bool.not_eq_false] at hb
    have : ((Minesweeper.new size locs).board x y).value = TileValue.Bomb := by
      have := (hcongr x y).trans hb
      exact (Tile.is_bomb_true_iff _).mp this
    rw [this] at hv
    cases hv

/-- C6, witness: on the 3×3 board with a mine at (0,0), tile (1,1) holds
`Number 1`, which equals its adjacent-mine count. -/
theorem claim_C6_witness :
    (1 < 3 ∧ ((Minesweeper.new 3 [(0, 0)]).board 1 1).value = TileValue.Number 1) ∧
    1 = spec_adjacent_mine_count (Minesweeper.new 3 [(0, 0)]).board 3 1 1 :=
  ⟨⟨by decide, by decide⟩,
   claim_C6_adjacency 3 [(0, 0)] 1 1 1 (by decide) (by decide) (by decide)⟩

/-! ### Flood-fill lemmas -/

theorem set_exposed_apply (b : Board) (x y i j : Nat) :
    set_exposed b x y i j =
      if i = x ∧ j = y then { b x y with exposed := true } else b i j := rfl

theorem set_exposed_value (b : Board) (x y i j : Nat) :
    (set_exposed b x y i j).value = (b i j).value := by
  rw [set_exposed_apply]
  split
  · rename_i h
    rw [h.1, h.2]
  · rfl

theorem set_exposed_flagged (b : Board) (x y i j : Nat) :
    (set_exposed b x y i j).flagged = (b i j).flagged := by
  rw [set_exposed_apply]
  split
  · rename_i h
    rw [h.1, h.2]
  · rfl

theorem set_exposed_self (b : Board) (x y : Nat) :
    (set_exposed b x y x y).exposed = true := by
  rw [set_exposed_apply, if_pos ⟨rfl, rfl⟩]

theorem set_exposed_other (b : Board) (x y i j : Nat) (h : ¬(i = x ∧ j = y)) :
    set_exposed b x y i j = b i j := by
  rw [set_exposed_apply, if_neg h]

theorem set_exposed_mono (b : Board) (x y i j : Nat) (h : (b i j).exposed = true) :
    (set_exposed b x y i j).exposed = true := by
  rw [set_exposed_apply]
  split
  · rfl
  · exact h

theorem set_visited_self (v : Nat → Nat → Bool) (x y : Nat) :
    set_visited v x y x y = true := by
  unfold set_visited
  rw [if_pos ⟨rfl, rfl⟩]

theorem set_visited_mono (v : Nat → Nat → Bool) (x y i j : Nat) (h : v i j = true) :
    set_visited v x y i j = true := by
  unfold set_visited
  split
  · rfl
  · exact h

theorem Tile.is_bomb_eq_of_value (t t' : Tile) (h : t.value = t'.value) :
    t.is_bomb = t'.is_bomb := by
  unfold Tile.is_bomb
  rw [h]

theorem flood_loop_zero (size : Nat) (vis : Nat → Nat → Bool) (q : List (Nat × Nat))
    (b : Board) (tr : List (Nat × Nat)) : flood_loop size 0 vis q b tr = (b, tr) := rfl

theorem flood_loop_nil (size fuel : Nat) (vis : Nat → Nat → Bool)
    (b : Board) (tr : List (Nat × Nat)) :
    flood_loop size (fuel + 1) vis [] b tr = (b, tr) := rfl

theorem flood_loop_cons (size fuel : Nat) (vis : Nat → Nat → Bool) (x y : Nat)
    (rest : List (Nat × Nat)) (b : Board) (tr : List (Nat × Nat)) :
    flood_loop size (fuel + 1) vis ((x, y) :: rest) b tr =
      if is_positive_number (set_exposed b x y x y).value then
        flood_loop size fuel vis rest (set_exposed b x y) (tr ++ [(x, y)])
      else
        flood_loop size fuel (flood_expand size x y (set_exposed b x y, vis, rest)).2.1
          (flood_expand size x y (set_exposed b x y, vis, rest)).2.2
          (flood_expand size x y (set_exposed b x y, vis, rest)).1 (tr ++ [(x, y)]) := rfl

theorem flood_expand_mono (size x y i j : Nat)
    (st : Board × (Nat → Nat → Bool) × List (Nat × Nat))
    (h : (st.1 i j).exposed = true) :
    ((flood_expand size x y st).1 i j).exposed = true := by
  unfold flood_expand
  refine foldl_preserves (fun st => (st.1 i j).exposed = true) _ ?_ neighbor_offsets st h
  intro st d hst
  dsimp only
  split
  · split
    · exact set_exposed_mono _ _ _ _ _ hst
    · exact hst
  · exact hst

theorem flood_loop_mono (size : Nat) :
    ∀ (fuel : Nat) (vis : Nat → Nat → Bool) (q : List (Nat × Nat)) (b : Board)
      (tr : List (Nat × Nat)) (i j : Nat), (b i j).exposed = true →
      ((flood_loop size fuel vis q b tr).1 i j).exposed = true := by
  intro fuel
  induction fuel with
  | zero => intro vis q b tr i j h; rw [flood_loop_zero]; exact h
  | succ fuel ih =>
    intro vis q b tr i j h
    match q with
    | [] => rw [flood_loop_nil]; exact h
    | (x, y) :: rest =>
      rw [flood_loop_cons]
      split
      · exact ih _ _ _ _ _ _ (set_exposed_mono _ _ _ _ _ h)
      · exact ih _ _ _ _ _ _ (flood_expand_mono _ _ _ _ _ _ (set_exposed_mono _ _ _ _ _ h))

theorem flood_expand_inv (size x y : Nat) (b₀ : Board) (tr : List (Nat × Nat))
    (st : Board × (Nat → Nat → Bool) × List (Nat × Nat))
    (h : FloodInv size b₀ tr st) :
    FloodInv size b₀ tr (flood_expand size x y st) := by
  unfold flood_expand
  refine foldl_preserves (FloodInv size b₀ tr) _ ?_ neighbor_offsets st h
  intro st d hst
  obtain ⟨h1, h2, h3, h4, h5⟩ := hst
  dsimp only
  split
  · rename_i hin
    split
    · rename_i hok
      obtain ⟨hvis, hbombcur, hflagcur⟩ := hok
      set cx := ((x : Int) + d.1).toNat with hcx
      set cy := ((y : Int) + d.2).toNat with hcy
      have hflag0 : (b₀ cx cy).flagged = false := by
        rw [← (h1 cx cy).2]
        exact hflagcur
      have hbomb0 : (b₀ cx cy).is_bomb = false := by
        rw [← Tile.is_bomb_eq_of_value (st.1 cx cy) (b₀ cx cy) (h1 cx cy).1]
        exact hbombcur
      have hnotmem : (cx, cy) ∉ tr ++ st.2.2 := by
        intro hmem
        have := h5 _ hmem
        rw [hvis] at this
        cases this
      have hdisj : (tr ++ st.2.2).Disjoint [(cx, cy)] := by
        intro a ha hmem
        rw [List.mem_singleton] at hmem
        subst hmem
        exact hnotmem ha
      by_cases henq : (st.1 cx cy).value = TileValue.Number 0
      · rw [if_pos henq]
        refine ⟨?_, ?_, ?_, ?_, ?_⟩
        · intro i j
          exact ⟨(set_exposed_value _ _ _ _ _).trans (h1 i j).1,
            (set_exposed_flagged _ _ _ _ _).trans (h1 i j).2⟩
        · intro i j hij
          by_cases hc : i = cx ∧ j = cy
          · exfalso
            rw [hc.1, hc.2] at hij
            rcases hij with hf | hb
            · rw [hflag0] at hf
              cases hf
            · rw [hbomb0] at hb
              cases hb
          · show (set_exposed st.1 cx cy i j).exposed = (b₀ i j).exposed
            rw [set_exposed_other _ _ _ _ _ hc]
            exact h2 i j hij
        · intro c hc
          rcases List.mem_append.mp hc with hold | hnew
          · exact h3 c hold
          · rw [List.mem_singleton] at hnew
            subst hnew
            exact ⟨hin.2.2.1, hin.2.2.2, hflag0, hbomb0⟩
        · rw [← List.append_assoc]
          exact h4.append (List.nodup_singleton _) hdisj
        · intro c hc
          rw [← List.append_assoc] at hc
          rcases List.mem_append.mp hc with hold | hnew
          · exact set_visited_mono _ _ _ _ _ (h5 c hold)
          · rw [List.mem_singleton] at hnew
            subst hnew
            exact set_visited_self _ _ _
      · rw [if_neg henq]
        refine ⟨?_, ?_, h3, h4, ?_⟩
        · intro i j
          exact ⟨(set_exposed_value _ _ _ _ _).trans (h1 i j).1,
            (set_exposed_flagged _ _ _ _ _).trans (h1 i j).2⟩
        · intro i j hij
          by_cases hc : i = cx ∧ j = cy
          · exfalso
            rw [hc.1, hc.2] at hij
            rcases hij with hf | hb
            · rw [hflag0] at hf
              cases hf
            · rw [hbomb0] at hb
              cases hb
          · show (set_exposed st.1 cx cy i j).exposed = (b₀ i j).exposed
            rw [set_exposed_other _ _ _ _ _ hc]
            exact h2 i j hij
        · intro c hc
          exact set_visited_mono _ _ _ _ _ (h5 c hc)
    · exact ⟨h1, h2, h3, h4, h5⟩
  · exact ⟨h1, h2, h3, h4, h5⟩

theorem flood_loop_inv (size : Nat) (b₀ : Board) :
    ∀ (fuel : Nat) (vis : Nat → Nat → Bool) (q tr : List (Nat × Nat)) (b : Board),
      FloodInv size b₀ tr (b, vis, q) →
      (∀ i j, ((flood_loop size fuel vis q b tr).1 i j).value = (b₀ i j).value ∧
        ((flood_loop size fuel vis q b tr).1 i j).flagged = (b₀ i j).flagged) ∧
      (∀ i j, ((b₀ i j).flagged = true ∨ (b₀ i j).is_bomb = true) →
        ((flood_loop size fuel vis q b tr).1 i j).exposed = (b₀ i j).exposed) ∧
      (flood_loop size fuel vis q b tr).2.Nodup := by
  intro fuel
  induction fuel with
  | zero =>
    intro vis q tr b h
    rw [flood_loop_zero]
    exact ⟨h.1, h.2.1, h.2.2.2.1.of_append_left⟩
  | succ fuel ih =>
    intro vis q tr b h
    match q with
    | [] =>
      rw [flood_loop_nil]
      exact ⟨h.1, h.2.1, h.2.2.2.1.of_append_left⟩
    | (x, y) :: rest =>
      have hhead := h.2.2.1 (x, y) (List.mem_cons_self _ _)
      have hmid : FloodInv size b₀ (tr ++ [(x, y)]) (set_exposed b x y, vis, rest) := by
        refine ⟨?_, ?_, ?_, ?_, ?_⟩
        · intro i j
          exact ⟨(set_exposed_value _ _ _ _ _).trans (h.1 i j).1,
            (set_exposed_flagged _ _ _ _ _).trans (h.1 i j).2⟩
        · intro i j hij
          by_cases hc : i = x ∧ j = y
          · exfalso
            rw [hc.1, hc.2] at hij
            rcases hij with hf | hb
            · rw [hhead.2.2.1] at hf
              cases hf
            · rw [hhead.2.2.2] at hb
              cases hb
          · show (set_exposed b x y i j).exposed = (b₀ i j).exposed
            rw [set_exposed_other _ _ _ _ _ hc]
            exact h.2.1 i j hij
        · intro c hc
          exact h.2.2.1 c (List.mem_cons_of_mem _ hc)
        · rw [List.append_assoc]
          exact h.2.2.2.1
        · intro c hc
          rw [List.append_assoc] at hc
          exact h.2.2.2.2 c hc
      rw [flood_loop_cons]
      split
      · exact ih vis rest (tr ++ [(x, y)]) _ hmid
      · exact ih _ _ (tr ++ [(x, y)]) _ (flood_expand_inv size x y b₀ _ _ hmid)

theorem flood_fill_game_state (g : Minesweeper) (sx sy : Nat) :
    (g.flood_fill sx sy).1.game_state = g.game_state := rfl

theorem flood_fill_size (g : Minesweeper) (sx sy : Nat) :
    (g.flood_fill sx sy).1.size = g.size := rfl

theorem flood_fill_bomb_count (g : Minesweeper) (sx sy : Nat) :
    (g.flood_fill sx sy).1.bomb_count = g.bomb_count := rfl

theorem flood_fill_invariants (g : Minesweeper) (sx sy : Nat)
    (hx : sx < g.size) (hy : sy < g.size)
    (hflag : (g.board sx sy).flagged = false) (hbomb : (g.board sx sy).is_bomb = false) :
    (∀ i j, ((g.flood_fill sx sy).1.board i j).value = (g.board i j).value ∧
      ((g.flood_fill sx sy).1.board i j).flagged = (g.board i j).flagged) ∧
    (∀ i j, ((g.board i j).flagged = true ∨ (g.board i j).is_bomb = true) →
      ((g.flood_fill sx sy).1.board i j).exposed = (g.board i j).exposed) ∧
    (g.flood_fill sx sy).2.Nodup := by
  have hinv : FloodInv g.size g.board []
      (g.board, set_visited (fun _ _ => false) sx sy, [(sx, sy)]) := by
    refine ⟨fun i j => ⟨rfl, rfl⟩, fun i j _ => rfl, ?_, ?_, ?_⟩
    · intro c hc
      rw [List.mem_singleton] at hc
      subst hc
      exact ⟨hx, hy, hflag, hbomb⟩
    · simp
    · intro c hc
      rw [List.nil_append, List.mem_singleton] at hc
      subst hc
      show set_visited (fun _ _ => false) sx sy sx sy = true
      exact set_visited_self _ _ _
  exact flood_loop_inv g.size g.board (g.size * g.size + 1) _ _ _ _ hinv

theorem flood_fill_start_exposed (g : Minesweeper) (sx sy : Nat) :
    ((g.flood_fill sx sy).1.board sx sy).exposed = true := by
  show ((flood_loop g.size (g.size * g.size + 1) (set_visited (fun _ _ => false) sx sy)
    [(sx, sy)] g.board []).1 sx sy).exposed = true
  rw [flood_loop_cons]
  split
  · exact flood_loop_mono _ _ _ _ _ _ _ _ (set_exposed_self _ _ _)
  · exact flood_loop_mono _ _ _ _ _ _ _ _
      (flood_expand_mono _ _ _ _ _ _ (set_exposed_self _ _ _))

/-! ### Claim C8: flood-fill safety -/

/-- C8: clicking an unexposed, unflagged zero tile of an in-progress game
starts a flood fill that never changes the exposure of any flagged tile or
any mine tile, and that processes (dequeues) each coordinate at most once
(the processed trace has no duplicates). -/
theorem claim_C8_flood_fill_safe (g : Minesweeper) (x y : Nat)
    (hstate : g.game_state = GameState.InProgress)
    (hx : x < g.size) (hy : y < g.size)
    (hexp : (g.board x y).exposed = false)
    (hflag : (g.board x y).flagged = false)
    (hval : (g.board x y).value = TileValue.Number 0) :
    (∀ i j, ((g.board i j).flagged = true ∨ (g.board i j).is_bomb = true) →
      ((g.flood_fill x y).1.board i j).exposed = (g.board i j).exposed) ∧
    (g.flood_fill x y).2.Nodup := by
  have hbomb : (g.board x y).is_bomb = false := by
    rw [Tile.is_bomb_false_iff]
    exact ⟨0, hval⟩
  have h := flood_fill_invariants g x y hx hy hflag hbomb
  exact ⟨h.2.1, h.2.2⟩

/-- C8, witness: the flood fill started by clicking the zero tile (2,2) on
the 3×3 board with a single mine at (0,0). -/
theorem claim_C8_witness :
    ((Minesweeper.new 3 [(0, 0)]).game_state = GameState.InProgress ∧
     2 < (Minesweeper.new 3 [(0, 0)]).size ∧
     ((Minesweeper.new 3 [(0, 0)]).board 2 2).exposed = false ∧
     ((Minesweeper.new 3 [(0, 0)]).board 2 2).flagged = false ∧
     ((Minesweeper.new 3 [(0, 0)]).board 2 2).value = TileValue.Number 0) ∧
    ((∀ i j, (((Minesweeper.new 3 [(0, 0)]).board i j).flagged = true ∨
        ((Minesweeper.new 3 [(0, 0)]).board i j).is_bomb = true) →
      (((Minesweeper.new 3 [(0, 0)]).flood_fill 2 2).1.board i j).exposed =
        ((Minesweeper.new 3 [(0, 0)]).board i j).exposed) ∧
     ((Minesweeper.new 3 [(0, 0)]).flood_fill 2 2).2.Nodup) :=
  ⟨⟨by decide, by decide, by decide, by decide, by decide⟩,
   claim_C8_flood_fill_safe (Minesweeper.new 3 [(0, 0)]) 2 2 (by decide) (by decide)
     (by decide) (by decide) (by decide) (by decide)⟩

/-! ### `check_win_condition` and successful-click lemmas -/

theorem check_win_condition_cases (g : Minesweeper) :
    (g.unexposed_non_bombs = 0 ∧
      g.check_win_condition = { g with game_state := GameState.Won }) ∨
    (g.unexposed_non_bombs ≠ 0 ∧ g.check_win_condition = g) := by
  unfold Minesweeper.check_win_condition
  by_cases h : g.unexposed_non_bombs = 0
  · exact Or.inl ⟨h, if_pos h⟩
  · exact Or.inr ⟨h, if_neg h⟩

theorem check_win_condition_board (g : Minesweeper) :
    g.check_win_condition.board = g.board := by
  rcases check_win_condition_cases g with ⟨_, h⟩ | ⟨_, h⟩ <;> rw [h]

theorem check_win_condition_size (g : Minesweeper) :
    g.check_win_condition.size = g.size := by
  rcases check_win_condition_cases g with ⟨_, h⟩ | ⟨_, h⟩ <;> rw [h]

theorem check_win_condition_bomb_count (g : Minesweeper) :
    g.check_win_condition.bomb_count = g.bomb_count := by
  rcases check_win_condition_cases g with ⟨_, h⟩ | ⟨_, h⟩ <;> rw [h]

theorem check_win_condition_state_not_lost (g : Minesweeper)
    (h : g.game_state ≠ GameState.Lost) :
    g.check_win_condition.game_state ≠ GameState.Lost := by
  rcases check_win_condition_cases g with ⟨_, he⟩ | ⟨_, he⟩ <;> rw [he]
  · intro hc
    cases hc
  · exact h

/-- A successful click on an in-range, unexposed, unflagged non-mine tile:
it returns `Ok`, cannot lose the game, exposes the clicked tile, and never
changes any tile's value, the size or the bomb count. -/
theorem click_success_not_bomb (g : Minesweeper) (x y : Nat)
    (hstate : g.game_state = GameState.InProgress)
    (hx : x < g.size) (hy : y < g.size)
    (hexp : (g.board x y).exposed = false)
    (hflag : (g.board x y).flagged = false)
    (hbomb : (g.board x y).is_bomb = false) :
    (g.click_tile x y).2 = none ∧
    (g.click_tile x y).1.game_state ≠ GameState.Lost ∧
    ((g.click_tile x y).1.board x y).exposed = true ∧
    (∀ i j, ((g.click_tile x y).1.board i j).value = (g.board i j).value) ∧
    (g.click_tile x y).1.size = g.size ∧
    (g.click_tile x y).1.bomb_count = g.bomb_count := by
  obtain ⟨n, hval⟩ := (Tile.is_bomb_false_iff _).mp hbomb
  match n with
  | 0 =>
    rw [click_tile_zero g x y hstate hx hy hexp hflag hval]
    refine ⟨rfl, ?_, ?_, ?_, ?_, ?_⟩
    · apply check_win_condition_state_not_lost
      rw [flood_fill_game_state, hstate]
      intro hc
      cases hc
    · rw [check_win_condition_board]
      exact flood_fill_start_exposed g x y
    · intro i j
      rw [check_win_condition_board]
      exact ((flood_fill_invariants g x y hx hy hflag hbomb).1 i j).1
    · rw [check_win_condition_size, flood_fill_size]
    · rw [check_win_condition_bomb_count, flood_fill_bomb_count]
  | m + 1 =>
    rw [click_tile_number g x y m hstate hx hy hexp hflag hval]
    refine ⟨rfl, ?_, ?_, ?_, ?_, ?_⟩
    · apply check_win_condition_state_not_lost
      show g.game_state ≠ GameState.Lost
      rw [hstate]
      intro hc
      cases hc
    · rw [check_win_condition_board]
      exact set_exposed_self _ _ _
    · intro i j
      rw [check_win_condition_board]
      exact set_exposed_value _ _ _ _ _
    · rw [check_win_condition_size]
    · rw [check_win_condition_bomb_count]

/-! ### Claim C3: the exposed/flagged invariant -/

theorem expose_all_bombs_board_cases (size : Nat) (b : Board) (i j : Nat) :
    expose_all_bombs_board size b i j = b i j ∨
      ((b i j).is_bomb = true ∧
        expose_all_bombs_board size b i j = { b i j with exposed := true }) := by
  unfold expose_all_bombs_board
  split
  · rename_i h
    exact Or.inr ⟨h.2.2, rfl⟩
  · exact Or.inl rfl

theorem exposed_flagged_bomb_click (g : Minesweeper) (x y : Nat)
    (hI : ∀ i j, (g.board i j).exposed = true → (g.board i j).flagged = true →
      (g.board i j).is_bomb = true) :
    ∀ i j, ((g.click_tile x y).1.board i j).exposed = true →
      ((g.click_tile x y).1.board i j).flagged = true →
      ((g.click_tile x y).1.board i j).is_bomb = true := by
  by_cases hstate : g.game_state = GameState.InProgress
  case neg =>
    rw [click_tile_game_over g x y hstate]
    exact hI
  by_cases hrange : x < g.size ∧ y < g.size
  case neg =>
    rw [click_tile_out_of_range g x y hstate hrange]
    exact hI
  obtain ⟨hx, hy⟩ := hrange
  by_cases hunav : (g.board x y).exposed = true ∨ (g.board x y).flagged = true
  case pos =>
    rw [click_tile_unavailable g x y hstate hx hy hunav]
    exact hI
  rw [not_or] at hunav
  have hexp : (g.board x y).exposed = false := by
    cases hb : (g.board x y).exposed
    · rfl
    · exact absurd hb hunav.1
  have hflag : (g.board x y).flagged = false := by
    cases hb : (g.board x y).flagged
    · rfl
    · exact absurd hb hunav.2
  rcases hv : (g.board x y).value with _ | n
  · rw [click_tile_bomb g x y hstate hx hy hexp hflag hv]
    intro i j hexp' hflag'
    have hexp2 : (expose_all_bombs_board g.size g.board i j).exposed = true := hexp'
    have hflag2 : (expose_all_bombs_board g.size g.board i j).flagged = true := hflag'
    show (expose_all_bombs_board g.size g.board i j).is_bomb = true
    rcases expose_all_bombs_board_cases g.size g.board i j with hsame | ⟨hb, hset⟩
    · rw [hsame] at hexp2 hflag2 ⊢
      exact hI i j hexp2 hflag2
    · rw [hset]
      exact hb
  · have hbomb : (g.board x y).is_bomb = false := by
      rw [Tile.is_bomb_false_iff]
      exact ⟨n, hv⟩
    match n with
    | 0 =>
      rw [click_tile_zero g x y hstate hx hy hexp hflag hv]
      intro i j hexp' hflag'
      have hexp2 : ((Minesweeper.check_win_condition (g.flood_fill x y).1).board i j).exposed
          = true := hexp'
      have hflag2 : ((Minesweeper.check_win_condition (g.flood_fill x y).1).board i j).flagged
          = true := hflag'
      rw [check_win_condition_board] at hexp2 hflag2
      show ((Minesweeper.check_win_condition (g.flood_fill x y).1).board i j).is_bomb = true
      rw [check_win_condition_board]
      have hff := flood_fill_invariants g x y hx hy hflag hbomb
      have hflag0 : (g.board i j).flagged = true := by
        rw [← (hff.1 i j).2]
        exact hflag2
      have hexp0 : (g.board i j).exposed = true := by
        rw [← hff.2.1 i j (Or.inl hflag0)]
        exact hexp2
      rw [Tile.is_bomb_eq_of_value _ (g.board i j) (hff.1 i j).1]
      exact hI i j hexp0 hflag0
    | m + 1 =>
      rw [click_tile_number g x y m hstate hx hy hexp hflag hv]
      intro i j hexp' hflag'
      have hexp2 : (set_exposed g.board x y i j).exposed = true := by
        have h2 : ((Minesweeper.check_win_condition
            { g with board := set_exposed g.board x y }).board i j).exposed = true := hexp'
        rw [check_win_condition_board] at h2
        exact h2
      have hflag2 : (set_exposed g.board x y i j).flagged = true := by
        have h2 : ((Minesweeper.check_win_condition
            { g with board := set_exposed g.board x y }).board i j).flagged = true := hflag'
        rw [check_win_condition_board] at h2
        exact h2
      show ((Minesweeper.check_win_condition
          { g with board := set_exposed g.board x y }).board i j).is_bomb = true
      rw [check_win_condition_board]
      show (set_exposed g.board x y i j).is_bomb = true
      by_cases hc : i = x ∧ j = y
      · exfalso
        rw [set_exposed_flagged] at hflag2
        rw [hc.1, hc.2, hflag] at hflag2
        cases hflag2
      · rw [set_exposed_other _ _ _ _ _ hc] at hexp2 hflag2 ⊢
        exact hI i j hexp2 hflag2

theorem exposed_flagged_bomb_flag (g : Minesweeper) (x y : Nat)
    (hI : ∀ i j, (g.board i j).exposed = true → (g.board i j).flagged = true →
      (g.board i j).is_bomb = true) :
    ∀ i j, ((g.toggle_flag x y).1.board i j).exposed = true →
      ((g.toggle_flag x y).1.board i j).flagged = true →
      ((g.toggle_flag x y).1.board i j).is_bomb = true := by
  by_cases hstate : g.game_state = GameState.InProgress
  case neg =>
    rw [toggle_flag_game_over g x y hstate]
    exact hI
  by_cases hrange : x < g.size ∧ y < g.size
  case neg =>
    rw [toggle_flag_out_of_range g x y hstate hrange]
    exact hI
  by_cases hexp : (g.board x y).exposed = true
  · rw [toggle_flag_exposed g x y hstate hrange.1 hrange.2 hexp]
    exact hI
  · have hexp' : (g.board x y).exposed = false := by
      cases hb : (g.board x y).exposed
      · rfl
      · exact absurd hb hexp
    rw [toggle_flag_success g x y hstate hrange.1 hrange.2 hexp']
    intro i j he hf
    have he2 : ((updateTile g.board x y fun t => { t with flagged := !t.flagged }) i j).exposed
        = true := he
    have hf2 : ((updateTile g.board x y fun t => { t with flagged := !t.flagged }) i j).flagged
        = true := hf
    show ((updateTile g.board x y fun t => { t with flagged := !t.flagged }) i j).is_bomb = true
    rw [updateTile_apply] at he2 hf2 ⊢
    by_cases hc : i = x ∧ j = y
    · exfalso
      rw [if_pos hc] at he2
      have : (g.board x y).exposed = true := he2
      rw [hexp'] at this
      cases this
    · rw [if_neg hc] at he2 hf2 ⊢
      exact hI i j he2 hf2

theorem reachable_exposed_flagged_bomb (g : Minesweeper) (h : Reachable g) :
    ∀ i j, (g.board i j).exposed = true → (g.board i j).flagged = true →
      (g.board i j).is_bomb = true := by
  induction h with
  | new size locs =>
    intro i j he _
    rw [new_exposed] at he
    cases he
  | click g x y _ ih => exact exposed_flagged_bomb_click g x y ih
  | flag g x y _ ih => exact exposed_flagged_bomb_flag g x y ih

theorem toggle_flag_rejects_exposed (g : Minesweeper) (x y : Nat)
    (h : (g.board x y).exposed = true) : (g.toggle_flag x y).2.isSome = true := by
  by_cases hstate : g.game_state = GameState.InProgress
  · by_cases hrange : x < g.size ∧ y < g.size
    · rw [toggle_flag_exposed g x y hstate hrange.1 hrange.2 h]
      rfl
    · rw [toggle_flag_out_of_range g x y hstate hrange]
      rfl
  · rw [toggle_flag_game_over g x y hstate]
    rfl

theorem click_tile_rejects_flagged (g : Minesweeper) (x y : Nat)
    (h : (g.board x y).flagged = true) : (g.click_tile x y).2.isSome = true := by
  by_cases hstate : g.game_state = GameState.InProgress
  · by_cases hrange : x < g.size ∧ y < g.size
    · rw [click_tile_unavailable g x y hstate hrange.1 hrange.2 (Or.inr h)]
      rfl
    · rw [click_tile_out_of_range g x y hstate hrange]
      rfl
  · rw [click_tile_game_over g x y hstate]
    rfl

/-- C3, counterexample: reachable violation of "no tile is both exposed and
flagged".  On the 2×2 board with mines at (0,0) and (0,1): flag the mine
(0,0), then click the mine (0,1).  The losing click calls
`expose_all_bombs`, which exposes *every* mine including the flagged one,
so tile (0,0) ends up exposed and flagged at once. -/
theorem claim_C3_counterexample :
    (((((Minesweeper.new 2 [(0, 0), (0, 1)]).toggle_flag 0 0).1.click_tile 0 1).1.board 0 0).exposed
        = true) ∧
    (((((Minesweeper.new 2 [(0, 0), (0, 1)]).toggle_flag 0 0).1.click_tile 0 1).1.board 0 0).flagged
        = true) := by decide

/-- C3, amended: in every reachable game state, a tile that is both exposed
and flagged must be a mine (this can only arise from `expose_all_bombs`
exposing a flagged mine when the game is lost); `toggle_flag` on an exposed
tile is always rejected, and `click_tile` on a flagged tile is always
rejected, so no non-mine tile is ever both exposed and flagged. -/
theorem claim_C3_amended :
    (∀ g, Reachable g → ∀ i j, (g.board i j).exposed = true →
      (g.board i j).flagged = true → (g.board i j).is_bomb = true) ∧
    (∀ (g : Minesweeper) (x y : Nat), (g.board x y).exposed = true →
      (g.toggle_flag x y).2.isSome = true) ∧
    (∀ (g : Minesweeper) (x y : Nat), (g.board x y).flagged = true →
      (g.click_tile x y).2.isSome = true) :=
  ⟨reachable_exposed_flagged_bomb, toggle_flag_rejects_exposed, click_tile_rejects_flagged⟩

/-- C3, witness: the amended invariant applied to the concrete lost game of
the counterexample scenario — the exposed-and-flagged tile (0,0) is indeed
a mine. -/
theorem claim_C3_witness :
    (((((Minesweeper.new 2 [(0, 0), (0, 1)]).toggle_flag 0 0).1.click_tile 0 1).1.board 0 0).exposed
        = true) ∧
    (((((Minesweeper.new 2 [(0, 0), (0, 1)]).toggle_flag 0 0).1.click_tile 0 1).1.board 0 0).flagged
        = true) ∧
    (((((Minesweeper.new 2 [(0, 0), (0, 1)]).toggle_flag 0 0).1.click_tile 0 1).1.board 0 0).is_bomb
        = true) :=
  ⟨by decide, by decide,
   claim_C3_amended.1 _
     (Reachable.click _ 0 1 (Reachable.flag _ 0 0 (Reachable.new 2 [(0, 0), (0, 1)])))
     0 0 (by decide) (by decide)⟩

/-! ### Claim C5: the win condition -/

theorem mem_grid_coords (size : Nat) (c : Nat × Nat) :
    c ∈ grid_coords size ↔ c.1 < size ∧ c.2 < size := by
  obtain ⟨a, b⟩ := c
  unfold grid_coords
  simp [List.mem_flatMap, List.mem_map, List.mem_range]

theorem expose_all_bombs_unexposed (g : Minesweeper) :
    (Minesweeper.expose_all_bombs g).unexposed_non_bombs = g.unexposed_non_bombs := by
  unfold Minesweeper.unexposed_non_bombs
  apply List.countP_congr
  intro c _
  show (!(expose_all_bombs_board g.size g.board c.1 c.2).is_bomb &&
      !(expose_all_bombs_board g.size g.board c.1 c.2).exposed) = true ↔
    (!(g.board c.1 c.2).is_bomb && !(g.board c.1 c.2).exposed) = true
  rcases expose_all_bombs_board_cases g.size g.board c.1 c.2 with hsame | ⟨hb, hset⟩
  · rw [hsame]
  · rw [hset]
    have h1 : ({ g.board c.1 c.2 with exposed := true } : Tile).is_bomb = true := hb
    rw [h1, hb]
    simp

theorem expose_all_bombs_total (g : Minesweeper) :
    non_mine_total (Minesweeper.expose_all_bombs g) = non_mine_total g := by
  unfold non_mine_total
  apply List.countP_congr
  intro c _
  show (!(expose_all_bombs_board g.size g.board c.1 c.2).is_bomb) = true ↔
    (!(g.board c.1 c.2).is_bomb) = true
  rcases expose_all_bombs_board_cases g.size g.board c.1 c.2 with hsame | ⟨hb, hset⟩
  · rw [hsame]
  · rw [hset]
    have h1 : ({ g.board c.1 c.2 with exposed := true } : Tile).is_bomb = true := hb
    rw [h1, hb]

theorem flag_flip_tile (b : Board) (x y i j : Nat) :
    ((updateTile b x y fun t => { t with flagged := !t.flagged }) i j).is_bomb =
      (b i j).is_bomb ∧
    ((updateTile b x y fun t => { t with flagged := !t.flagged }) i j).exposed =
      (b i j).exposed := by
  rw [updateTile_apply]
  by_cases hc : i = x ∧ j = y
  · rw [if_pos hc, hc.1, hc.2]
    exact ⟨rfl, rfl⟩
  · rw [if_neg hc]
    exact ⟨rfl, rfl⟩

theorem toggle_board_unexposed (g : Minesweeper) (x y : Nat) :
    Minesweeper.unexposed_non_bombs
        { g with board := updateTile g.board x y fun t => { t with flagged := !t.flagged } } =
      g.unexposed_non_bombs := by
  unfold Minesweeper.unexposed_non_bombs
  apply List.countP_congr
  intro c _
  show (!((updateTile g.board x y fun t => { t with flagged := !t.flagged }) c.1 c.2).is_bomb &&
      !((updateTile g.board x y fun t => { t with flagged := !t.flagged }) c.1 c.2).exposed)
        = true ↔ _
  rw [(flag_flip_tile g.board x y c.1 c.2).1, (flag_flip_tile g.board x y c.1 c.2).2]

theorem toggle_board_total (g : Minesweeper) (x y : Nat) :
    non_mine_total
        { g with board := updateTile g.board x y fun t => { t with flagged := !t.flagged } } =
      non_mine_total g := by
  unfold non_mine_total
  apply List.countP_congr
  intro c _
  show (!((updateTile g.board x y fun t => { t with flagged := !t.flagged }) c.1 c.2).is_bomb)
        = true ↔ _
  rw [(flag_flip_tile g.board x y c.1 c.2).1]

theorem win_inv_new (size : Nat) (locs : List (Nat × Nat)) :
    (Minesweeper.new size locs).game_state ≠ GameState.Won →
      (Minesweeper.new size locs).unexposed_non_bombs = 0 →
      non_mine_total (Minesweeper.new size locs) = 0 := by
  intro _ h0
  have h : (Minesweeper.new size locs).unexposed_non_bombs =
      non_mine_total (Minesweeper.new size locs) := by
    unfold Minesweeper.unexposed_non_bombs non_mine_total
    apply List.countP_congr
    intro c _
    rw [new_exposed]
    simp
  rw [← h]
  exact h0

theorem win_inv_click (g : Minesweeper) (x y : Nat)
    (hJ : g.game_state ≠ GameState.Won → g.unexposed_non_bombs = 0 → non_mine_total g = 0) :
    (g.click_tile x y).1.game_state ≠ GameState.Won →
      (g.click_tile x y).1.unexposed_non_bombs = 0 →
      non_mine_total (g.click_tile x y).1 = 0 := by
  by_cases hstate : g.game_state = GameState.InProgress
  case neg =>
    rw [click_tile_game_over g x y hstate]
    exact hJ
  by_cases hrange : x < g.size ∧ y < g.size
  case neg =>
    rw [click_tile_out_of_range g x y hstate hrange]
    exact hJ
  obtain ⟨hx, hy⟩ := hrange
  by_cases hunav : (g.board x y).exposed = true ∨ (g.board x y).flagged = true
  case pos =>
    rw [click_tile_unavailable g x y hstate hx hy hunav]
    exact hJ
  rw [not_or] at hunav
  have hexp : (g.board x y).exposed = false := by
    cases hb : (g.board x y).exposed
    · rfl
    · exact absurd hb hunav.1
  have hflag : (g.board x y).flagged = false := by
    cases hb : (g.board x y).flagged
    · rfl
    · exact absurd hb hunav.2
  rcases hv : (g.board x y).value with _ | n
  · rw [click_tile_bomb g x y hstate hx hy hexp hflag hv]
    intro _ h2
    have h2a : (Minesweeper.expose_all_bombs
        { g with game_state := GameState.Lost }).unexposed_non_bombs = 0 := h2
    have hu : (Minesweeper.expose_all_bombs
        { g with game_state := GameState.Lost }).unexposed_non_bombs =
        g.unexposed_non_bombs :=
      expose_all_bombs_unexposed { g with game_state := GameState.Lost }
    rw [hu] at h2a
    have htot : non_mine_total (Minesweeper.expose_all_bombs
        { g with game_state := GameState.Lost }) = non_mine_total g :=
      expose_all_bombs_total { g with game_state := GameState.Lost }
    show non_mine_total (Minesweeper.expose_all_bombs
        { g with game_state := GameState.Lost }) = 0
    rw [htot]
    refine hJ ?_ h2a
    rw [hstate]
    intro hc
    cases hc
  · match n with
    | 0 =>
      rw [click_tile_zero g x y hstate hx hy hexp hflag hv]
      intro h1 h2
      exfalso
      rcases check_win_condition_cases (g.flood_fill x y).1 with ⟨_, he⟩ | ⟨hcne, he⟩
      · have h1a : (Minesweeper.check_win_condition
            (g.flood_fill x y).1).game_state ≠ GameState.Won := h1
        apply h1a
        rw [he]
      · have h2a : (Minesweeper.check_win_condition
            (g.flood_fill x y).1).unexposed_non_bombs = 0 := h2
        rw [he] at h2a
        exact hcne h2a
    | m + 1 =>
      rw [click_tile_number g x y m hstate hx hy hexp hflag hv]
      intro h1 h2
      exfalso
      rcases check_win_condition_cases { g with board := set_exposed g.board x y } with
        ⟨_, he⟩ | ⟨hcne, he⟩
      · have h1a : (Minesweeper.check_win_condition
            { g with board := set_exposed g.board x y }).game_state ≠ GameState.Won := h1
        apply h1a
        rw [he]
      · have h2a : (Minesweeper.check_win_condition
            { g with board := set_exposed g.board x y }).unexposed_non_bombs = 0 := h2
        rw [he] at h2a
        exact hcne h2a

theorem win_inv_flag (g : Minesweeper) (x y : Nat)
    (hJ : g.game_state ≠ GameState.Won → g.unexposed_non_bombs = 0 → non_mine_total g = 0) :
    (g.toggle_flag x y).1.game_state ≠ GameState.Won →
      (g.toggle_flag x y).1.unexposed_non_bombs = 0 →
      non_mine_total (g.toggle_flag x y).1 = 0 := by
  by_cases hstate : g.game_state = GameState.InProgress
  case neg =>
    rw [toggle_flag_game_over g x y hstate]
    exact hJ
  by_cases hrange : x < g.size ∧ y < g.size
  case neg =>
    rw [toggle_flag_out_of_range g x y hstate hrange]
    exact hJ
  by_cases hexp : (g.board x y).exposed = true
  · rw [toggle_flag_exposed g x y hstate hrange.1 hrange.2 hexp]
    exact hJ
  · have hexp' : (g.board x y).exposed = false := by
      cases hb : (g.board x y).exposed
      · rfl
      · exact absurd hb hexp
    rw [toggle_flag_success g x y hstate hrange.1 hrange.2 hexp']
    intro h1 h2
    have h1a : g.game_state ≠ GameState.Won := h1
    have h2a : Minesweeper.unexposed_non_bombs
        { g with board := updateTile g.board x y fun t => { t with flagged := !t.flagged } }
          = 0 := h2
    rw [toggle_board_unexposed] at h2a
    show non_mine_total
        { g with board := updateTile g.board x y fun t => { t with flagged := !t.flagged } }
          = 0
    rw [toggle_board_total]
    exact hJ h1a h2a

theorem reachable_win_inv (g : Minesweeper) (h : Reachable g) :
    g.game_state ≠ GameState.Won → g.unexposed_non_bombs = 0 → non_mine_total g = 0 := by
  induction h with
  | new size locs => exact win_inv_new size locs
  | click g x y _ ih => exact win_inv_click g x y ih
  | flag g x y _ ih => exact win_inv_flag g x y ih

theorem all_non_mines_exposed_iff (g : Minesweeper) :
    all_non_mines_exposed g = true ↔ g.unexposed_non_bombs = 0 := by
  unfold all_non_mines_exposed Minesweeper.unexposed_non_bombs
  rw [List.all_eq_true, List.countP_eq_zero]
  refine forall_congr' fun c => forall_congr' fun _ => ?_
  cases hb : (g.board c.1 c.2).is_bomb <;> cases he : (g.board c.1 c.2).exposed <;>
    simp [hb, he]

/-- C5, counterexample: on the 1×1 board whose only tile is a mine, every
non-mine tile is (vacuously) exposed from the start, and the successful
click on (0,0) is a losing click: after this legal click sequence all
non-mine tiles are exposed yet the game state is `Lost`, not `Won`. -/
theorem claim_C5_counterexample :
    ((Minesweeper.new 1 [(0, 0)]).click_tile 0 0).2 = none ∧
    all_non_mines_exposed ((Minesweeper.new 1 [(0, 0)]).click_tile 0 0).1 = true ∧
    ((Minesweeper.new 1 [(0, 0)]).click_tile 0 0).1.game_state ≠ GameState.Won := by decide

/-- C5, amended: for every game *with at least one non-mine tile* reachable
by any sequence of click/flag actions, if every non-mine tile is exposed
then the game state is `Won`; and the win check depends only on the tiles'
values and exposure, never on flags, so winning is flag-independent. -/
theorem claim_C5_amended :
    (∀ g, Reachable g → 0 < non_mine_total g → all_non_mines_exposed g = true →
      g.game_state = GameState.Won) ∧
    (∀ g g' : Minesweeper, g'.size = g.size →
      (∀ i j, i < g.size → j < g.size →
        (g'.board i j).value = (g.board i j).value ∧
        (g'.board i j).exposed = (g.board i j).exposed) →
      g'.unexposed_non_bombs = g.unexposed_non_bombs) := by
  constructor
  · intro g hr htot hall
    by_contra hw
    have h0 : g.unexposed_non_bombs = 0 := (all_non_mines_exposed_iff g).mp hall
    have := reachable_win_inv g hr hw h0
    omega
  · intro g g' hsize h
    unfold Minesweeper.unexposed_non_bombs
    rw [hsize]
    apply List.countP_congr
    intro c hc
    have hm := (mem_grid_coords g.size c).mp hc
    rw [Tile.is_bomb_eq_of_value _ _ (h c.1 c.2 hm.1 hm.2).1, (h c.1 c.2 hm.1 hm.2).2]

/-- C5, witness: the spec's 2×2 scenario — mine at (0,0), click the three
non-mine tiles; the resulting reachable game has every non-mine exposed and
is `Won`. -/
theorem claim_C5_witness :
    0 < non_mine_total
        ((((Minesweeper.new 2 [(0, 0)]).click_tile 0 1).1.click_tile 1 0).1.click_tile 1 1).1 ∧
    all_non_mines_exposed
        ((((Minesweeper.new 2 [(0, 0)]).click_tile 0 1).1.click_tile 1 0).1.click_tile 1 1).1
      = true ∧
    ((((Minesweeper.new 2 [(0, 0)]).click_tile 0 1).1.click_tile 1 0).1.click_tile 1 1).1.game_state
      = GameState.Won :=
  ⟨by decide, by decide,
   claim_C5_amended.1 _
     (Reachable.click _ 1 1 (Reachable.click _ 1 0
       (Reachable.click _ 0 1 (Reachable.new 2 [(0, 0)]))))
     (by decide) (by decide)⟩

/-! ### Claims C1 and C10: the first-click-safe generator -/

theorem self_mem_get_area_around (fx fy size : Nat) (hx : fx < size) (hy : fy < size) :
    (fx, fy) ∈ get_area_around fx fy size := by
  unfold get_area_around
  rw [List.mem_filterMap]
  refine ⟨(0, 0), by decide, ?_⟩
  have e1 : ((fx : Int) + 0).toNat = fx := by omega
  have e2 : ((fy : Int) + 0).toNat = fy := by omega
  have hsib : signed_in_bounds ((fx : Int) + 0) ((fy : Int) + 0) size := by
    refine ⟨by omega, by omega, ?_, ?_⟩
    · rw [e1]
      exact hx
    · rw [e2]
      exact hy
  show (if signed_in_bounds ((fx : Int) + 0) ((fy : Int) + 0) size
      then some (((fx : Int) + 0).toNat, ((fy : Int) + 0).toNat) else none) = some (fx, fy)
  rw [if_pos hsib, e1, e2]

theorem first_click_not_in_pool (size bc fx fy : Nat) (hx : fx < size) (hy : fy < size) :
    (fx, fy) ∉ candidate_pool size bc fx fy := by
  intro hmem
  unfold candidate_pool at hmem
  dsimp only at hmem
  split at hmem <;> rw [List.mem_filter] at hmem
  · rcases of_decide_eq_true hmem.2 with h | h <;> exact absurd rfl h
  · exact of_decide_eq_true hmem.2 (self_mem_get_area_around fx fy size hx hy)

theorem draw_mines_cons (n : Nat) (pool : List (Nat × Nat)) (draws : List Nat) :
    draw_mines (n + 1) pool draws =
      pool.getD (draws.headD 0 % pool.length) (0, 0) ::
        draw_mines n (pool.eraseIdx (draws.headD 0 % pool.length)) draws.tail := rfl

theorem draw_mines_subset :
    ∀ (n : Nat) (pool : List (Nat × Nat)) (draws : List Nat), n ≤ pool.length →
      ∀ c ∈ draw_mines n pool draws, c ∈ pool := by
  intro n
  induction n with
  | zero =>
    intro pool draws _ c hc
    exact absurd hc (List.not_mem_nil c)
  | succ n ih =>
    intro pool draws hn c hc
    have hpos : 0 < pool.length := Nat.lt_of_lt_of_le (Nat.succ_pos n) hn
    have hidx : draws.headD 0 % pool.length < pool.length := Nat.mod_lt _ hpos
    rw [draw_mines_cons] at hc
    rcases List.mem_cons.mp hc with h | h
    · have hmem : pool.getD (draws.headD 0 % pool.length) (0, 0) ∈ pool := by
        rw [List.getD_eq_getElem _ _ hidx]
        exact List.getElem_mem hidx
      exact h ▸ hmem
    · have hlen : n ≤ (pool.eraseIdx (draws.headD 0 % pool.length)).length := by
        rw [List.length_eraseIdx, if_pos hidx]
        omega
      exact List.eraseIdx_subset _ _ (ih _ draws.tail hlen c h)

theorem draw_mines_length :
    ∀ (n : Nat) (pool : List (Nat × Nat)) (draws : List Nat), n ≤ pool.length →
      (draw_mines n pool draws).length = n := by
  intro n
  induction n with
  | zero => intro pool draws _; rfl
  | succ n ih =>
    intro pool draws hn
    have hpos : 0 < pool.length := Nat.lt_of_lt_of_le (Nat.succ_pos n) hn
    have hidx : draws.headD 0 % pool.length < pool.length := Nat.mod_lt _ hpos
    have hlen : n ≤ (pool.eraseIdx (draws.headD 0 % pool.length)).length := by
      rw [List.length_eraseIdx, if_pos hidx]
      omega
    rw [draw_mines_cons, List.length_cons, ih _ draws.tail hlen]

/-- A successful first click on a freshly constructed board whose mine list
avoids the clicked cell. -/
theorem new_ok_click (size : Nat) (locs : List (Nat × Nat)) (fx fy : Nat)
    (hx : fx < size) (hy : fy < size) (hmem : (fx, fy) ∉ locs) :
    ((Minesweeper.new size locs).click_tile fx fy).2 = none ∧
    ((Minesweeper.new size locs).click_tile fx fy).1.game_state ≠ GameState.Lost ∧
    (((Minesweeper.new size locs).click_tile fx fy).1.board fx fy).exposed = true ∧
    (((Minesweeper.new size locs).click_tile fx fy).1.board fx fy).is_bomb = false ∧
    ((Minesweeper.new size locs).click_tile fx fy).1.bomb_count = locs.length := by
  have hnotbomb : ((Minesweeper.new size locs).board fx fy).is_bomb = false := by
    cases hb : ((Minesweeper.new size locs).board fx fy).is_bomb
    · rfl
    · exact absurd ((new_is_bomb size locs fx fy).mp hb).1 hmem
  have hc := click_success_not_bomb (Minesweeper.new size locs) fx fy
    (new_game_state size locs) (by rw [new_size]; exact hx) (by rw [new_size]; exact hy)
    (new_exposed size locs fx fy) (new_flagged size locs fx fy) hnotbomb
  refine ⟨hc.1, hc.2.1, hc.2.2.1, ?_, hc.2.2.2.2.2.trans (new_bomb_count size locs)⟩
  rw [Tile.is_bomb_eq_of_value _ ((Minesweeper.new size locs).board fx fy)
    (hc.2.2.2.1 fx fy)]
  exact hnotbomb

theorem new_with_first_click_eq (size bc fx fy : Nat) (draws : List Nat)
    (h : ¬(size ≤ fx ∨ size ≤ fy)) :
    new_with_first_click size bc (fx, fy) draws =
      match ((Minesweeper.new size (draw_mines
          (min bc (candidate_pool size bc fx fy).length)
          (candidate_pool size bc fx fy) draws)).click_tile fx fy).2 with
      | none => Except.ok ((Minesweeper.new size (draw_mines
          (min bc (candidate_pool size bc fx fy).length)
          (candidate_pool size bc fx fy) draws)).click_tile fx fy).1
      | some _ => Except.error (Panic.panic "First click should always be safe") := by
  unfold new_with_first_click
  rw [if_neg h]

theorem new_with_first_click_ok (size bc fx fy : Nat) (draws : List Nat)
    (hx : fx < size) (hy : fy < size) :
    new_with_first_click size bc (fx, fy) draws =
      Except.ok ((Minesweeper.new size (draw_mines
        (min bc (candidate_pool size bc fx fy).length)
        (candidate_pool size bc fx fy) draws)).click_tile fx fy).1 := by
  have hcond : ¬(size ≤ fx ∨ size ≤ fy) := by
    rw [not_or]
    exact ⟨Nat.not_le.mpr hx, Nat.not_le.mpr hy⟩
  have hmem : (fx, fy) ∉ draw_mines (min bc (candidate_pool size bc fx fy).length)
      (candidate_pool size bc fx fy) draws := by
    intro hm
    exact first_click_not_in_pool size bc fx fy hx hy
      (draw_mines_subset _ _ draws (Nat.min_le_right _ _) _ hm)
  have h2 := (new_ok_click size _ fx fy hx hy hmem).1
  rw [new_with_first_click_eq size bc fx fy draws hcond, h2]

/-- C1, counterexample: with size = 3 (so bomb_count ≤ 3²−9 forces
bomb_count = 0) and the in-bounds first click (1,1), the generated game is
`Won` immediately after generation, not `InProgress`: the forced first
click floods the whole mine-free board and the win check fires. -/
theorem claim_C1_counterexample :
    3 ≤ 3 ∧ 0 ≤ 3 * 3 - 9 ∧
    (new_with_first_click 3 0 (1, 1) []).toOption.map Minesweeper.get_game_state =
      some GameState.Won := by decide

/-- C1, amended: for every size ≥ 3, bomb_count ≤ size²−9, in-bounds first
click and draw sequence, the generated game is never `Lost` (it is
`InProgress` unless the forced first click already exposes every non-mine
tile, in which case it is `Won`), and the first-click tile is exposed and
is not a mine. -/
theorem claim_C1_amended (size bomb_count fx fy : Nat) (draws : List Nat)
    (hsize : 3 ≤ size) (hbc : bomb_count ≤ size * size - 9)
    (hx : fx < size) (hy : fy < size) :
    ∃ g, new_with_first_click size bomb_count (fx, fy) draws = Except.ok g ∧
      g.game_state ≠ GameState.Lost ∧
      (g.board fx fy).exposed = true ∧
      (g.board fx fy).is_bomb = false := by
  have heq := new_with_first_click_ok size bomb_count fx fy draws hx hy
  have hmem : (fx, fy) ∉ draw_mines (min bomb_count (candidate_pool size bomb_count fx fy).length)
      (candidate_pool size bomb_count fx fy) draws := by
    intro hm
    exact first_click_not_in_pool size bomb_count fx fy hx hy
      (draw_mines_subset _ _ draws (Nat.min_le_right _ _) _ hm)
  have hk := new_ok_click size _ fx fy hx hy hmem
  exact ⟨_, heq, hk.2.1, hk.2.2.1, hk.2.2.2.1⟩

/-- C1, witness: the amended theorem on a 4×4 board with 7 bombs
(7 = 4²−9), first click (0,0). -/
theorem claim_C1_witness :
    (3 ≤ 4 ∧ 7 ≤ 4 * 4 - 9 ∧ 0 < 4) ∧
    (∃ g, new_with_first_click 4 7 (0, 0) [] = Except.ok g ∧
      g.game_state ≠ GameState.Lost ∧
      (g.board 0 0).exposed = true ∧
      (g.board 0 0).is_bomb = false) :=
  ⟨⟨by decide, by decide, by decide⟩,
   claim_C1_amended 4 7 0 0 [] (by decide) (by decide) (by decide) (by decide)⟩

/-- C10: for every size, requested bomb count, in-bounds first click and
draw sequence, the generated game reports `get_bomb_count()` equal to
`min(requested, pool size)` where the pool is the candidate list after the
3×3 exclusion (or its single-cell fallback); when the pool is smaller than
the request, the reported count is strictly below the requested one. -/
theorem claim_C10_bomb_count (size bomb_count fx fy : Nat) (draws : List Nat)
    (hx : fx < size) (hy : fy < size) :
    ∃ g, new_with_first_click size bomb_count (fx, fy) draws = Except.ok g ∧
      g.get_bomb_count = min bomb_count (candidate_pool size bomb_count fx fy).length ∧
      ((candidate_pool size bomb_count fx fy).length < bomb_count →
        g.get_bomb_count < bomb_count) := by
  have heq := new_with_first_click_ok size bomb_count fx fy draws hx hy
  have hmem : (fx, fy) ∉ draw_mines (min bomb_count (candidate_pool size bomb_count fx fy).length)
      (candidate_pool size bomb_count fx fy) draws := by
    intro hm
    exact first_click_not_in_pool size bomb_count fx fy hx hy
      (draw_mines_subset _ _ draws (Nat.min_le_right _ _) _ hm)
  have hk := new_ok_click size _ fx fy hx hy hmem
  have hcount : ((Minesweeper.new size (draw_mines
      (min bomb_count (candidate_pool size bomb_count fx fy).length)
      (candidate_pool size bomb_count fx fy) draws)).click_tile fx fy).1.get_bomb_count =
      min bomb_count (candidate_pool size bomb_count fx fy).length := by
    show ((Minesweeper.new size _).click_tile fx fy).1.bomb_count = _
    rw [hk.2.2.2.2]
    exact draw_mines_length _ _ draws (Nat.min_le_right _ _)
  refine ⟨_, heq, hcount, ?_⟩
  intro hlt
  rw [hcount, Nat.min_eq_right (Nat.le_of_lt hlt)]
  exact hlt

/-- C10, witness: size 2, requested bomb count 5, first click (0,0).  The
exclusion zone covers the whole board, the fallback pool has the 3 cells
other than (0,0), so the game reports `get_bomb_count() = 3 < 5`. -/
theorem claim_C10_witness :
    (0 < 2) ∧
    (∃ g, new_with_first_click 2 5 (0, 0) [] = Except.ok g ∧
      g.get_bomb_count = min 5 (candidate_pool 2 5 0 0).length ∧
      ((candidate_pool 2 5 0 0).length < 5 → g.get_bomb_count < 5)) :=
  ⟨by decide, claim_C10_bomb_count 2 5 0 0 [] (by decide) (by decide)⟩
